import Mathlib

/-
Verification development for the Asana-to-YouTrack migration script
(asana2youtrack.py).  The Python source is shallowly embedded: dict/object
records become structures, the global mapping dicts become association
lists threaded through the functions, raised exceptions become
Except/Option results, and the external HTTP APIs appear as explicit
inputs (the records they would return) and outputs (the records the
script would send).
-/

set_option autoImplicit false

namespace A2Y

/-! ## Calendar arithmetic

Models the epoch computation performed by `datetime.strptime` followed by
`strftime('%s')`.  The C `%s` format interprets the naive datetime in the
local timezone, so every conversion takes the local offset east of UTC in
seconds as a parameter (`tz = 0` models a process running with TZ=UTC).
The model covers years from 1970 on, which is the domain the migration
data lives in. -/

def isLeap (y : Nat) : Bool :=
  (y % 4 == 0 && y % 100 != 0) || (y % 400 == 0)

def daysInMonth (y m : Nat) : Nat :=
  if m = 2 then (if isLeap y then 29 else 28)
  else if m = 4 ∨ m = 6 ∨ m = 9 ∨ m = 11 then 30
  else 31

def daysInYear (y : Nat) : Nat := if isLeap y then 366 else 365

/-- Days from 1970-01-01 to the civil date y-m-d (valid for y ≥ 1970). -/
def epochDays (y m d : Nat) : Nat :=
  ((List.range (y - 1970)).map (fun i => daysInYear (1970 + i))).sum
    + ((List.range (m - 1)).map (fun i => daysInMonth y (i + 1))).sum
    + (d - 1)

/-! ## String scanning helpers

The Python parsing (`strptime`) is modelled over character lists so that
every definition evaluates by kernel reduction. -/

def splitOnChar (sep : Char) : List Char → List (List Char)
  | [] => [[]]
  | c :: rest =>
    let r := splitOnChar sep rest
    if c = sep then [] :: r
    else
      match r with
      | [] => [[c]]
      | h :: t => (c :: h) :: t

def digitsToNat? (l : List Char) : Option Nat :=
  if l ≠ [] ∧ l.all Char.isDigit then
    some (l.foldl (fun n c => n * 10 + (c.toNat - '0'.toNat)) 0)
  else none

/-- Parse `%Y-%m-%d` into (year, month, day), validating ranges the way
`strptime` does (with the model restriction y ≥ 1970). -/
def parseDate (l : List Char) : Option (Nat × Nat × Nat) :=
  match splitOnChar '-' l with
  | [ys, ms, ds] => do
    let y ← digitsToNat? ys
    let m ← digitsToNat? ms
    let d ← digitsToNat? ds
    if 1970 ≤ y ∧ 1 ≤ m ∧ m ≤ 12 ∧ 1 ≤ d ∧ d ≤ daysInMonth y m then
      some (y, m, d)
    else none
  | _ => none

/-- Result of `strptime(tstamp, '%Y-%m-%dT%H:%M:%S.%fZ')`.  `micro6` is the
microsecond value as printed back by `strftime('%f')`: always exactly six
digits. -/
structure TimeParts where
  year : Nat
  month : Nat
  day : Nat
  hour : Nat
  minute : Nat
  second : Nat
  micro6 : { l : List Char // l.length = 6 }
  deriving DecidableEq

/-- The `%f` directive: one to six digits, padded on the right to a
six-digit microsecond count. -/
def parseFrac (l : List Char) : Option { l : List Char // l.length = 6 } :=
  if h : 1 ≤ l.length ∧ l.length ≤ 6 ∧ l.all Char.isDigit then
    some ⟨l ++ List.replicate (6 - l.length) '0', by
      simp only [List.length_append, List.length_replicate]
      omega⟩
  else none

def parseTimestamp (s : String) : Option TimeParts :=
  match splitOnChar 'T' s.data with
  | [datePart, timePart] => do
    let (y, m, d) ← parseDate datePart
    match splitOnChar ':' timePart with
    | [hh, mm, rest] => do
      let hour ← digitsToNat? hh
      let minute ← digitsToNat? mm
      match splitOnChar '.' rest with
      | [ss, fracZ] => do
        let second ← digitsToNat? ss
        match fracZ.getLast? with
        | some 'Z' => do
          let micro ← parseFrac fracZ.dropLast
          if hour ≤ 23 ∧ minute ≤ 59 ∧ second ≤ 61 then
            some ⟨y, m, d, hour, minute, second, micro⟩
          else none
        | _ => none
      | _ => none
    | _ => none
  | _ => none

/-- Epoch seconds given by `strftime('%s')` on the parsed naive datetime:
the civil instant interpreted at local offset `tz` seconds east of UTC. -/
def epochSeconds (tz : Int) (t : TimeParts) : Int :=
  ((epochDays t.year t.month t.day * 86400
      + t.hour * 3600 + t.minute * 60 + t.second : Nat) : Int) - tz

/-- a_to_yt_time (src/python/asana2youtrack.py lines 64-66):
`"{}{}".format(tstamp.strftime('%s'), tstamp.strftime('%f'))[:-3]`.
The whole-second epoch string is concatenated with the six `%f` digits and
the final three characters are sliced off. -/
def a_to_yt_time (tz : Int) (tstamp : String) : Option String :=
  (parseTimestamp tstamp).map fun t =>
    let concat := (toString (epochSeconds tz t)).data ++ t.micro6.val
    String.mk (concat.take (concat.length - 3))

/-- a_to_yt_date (src/python/asana2youtrack.py lines 69-75): slice the
first ten characters, parse `%Y-%m-%d`, and return epoch seconds of that
(local) midnight times 1000, formatted as a decimal string. -/
def a_to_yt_date (tz : Int) (tstamp : String) : Option String :=
  (parseDate (tstamp.data.take 10)).map fun (y, m, d) =>
    toString ((((epochDays y m d * 86400 : Nat) : Int) - tz) * 1000)

/-! ## Claims C6 and C7: the numeric conversions -/

/-- C7: for every source ISO-8601-with-microseconds timestamp string, the
timestamp conversion returns the concatenation of the whole-second epoch
value with exactly the first three digits of the six-digit fractional part
(truncation to millisecond precision, not rounding). -/
theorem c7_time_truncates_to_millis (tz : Int) (s : String) (t : TimeParts)
    (h : parseTimestamp s = some t) :
    a_to_yt_time tz s =
      some (String.mk ((toString (epochSeconds tz t)).data ++ t.micro6.val.take 3)) := by
  have h6 := t.micro6.property
  simp only [a_to_yt_time, h, Option.map_some']
  congr 1
  rw [List.length_append, h6, Nat.add_sub_assoc (by omega),
    List.take_append_eq_append_take,
    List.take_of_length_le (by omega), Nat.add_sub_cancel_left]

def c7parts : TimeParts :=
  ⟨2023, 6, 15, 10, 30, 45, ⟨['1', '2', '3', '4', '5', '6'], by decide⟩⟩

theorem c7_witness :
    parseTimestamp "2023-06-15T10:30:45.123456Z" = some c7parts ∧
    a_to_yt_time 0 "2023-06-15T10:30:45.123456Z" =
      some (String.mk ((toString (epochSeconds 0 c7parts)).data ++ c7parts.micro6.val.take 3)) ∧
    a_to_yt_time 0 "2023-06-15T10:30:45.123456Z" = some "1686825045123" :=
  ⟨by decide, c7_time_truncates_to_millis 0 _ c7parts (by decide), by decide⟩

/-- C6 counterexample: the due-date conversion goes through `strftime('%s')`,
which interprets the parsed naive midnight in the local timezone.  With a
local offset of +01:00 (3600 seconds east of UTC) the source string
"2023-06-15" is not mapped to the epoch milliseconds of 2023-06-15T00:00:00Z
(1686787200000), contradicting the claim as stated. -/
theorem c6_counterexample :
    a_to_yt_date 3600 "2023-06-15" = some "1686783600000" ∧
    a_to_yt_date 3600 "2023-06-15" ≠ some "1686787200000" := by
  constructor
  · decide
  · decide

/-- C6 amended: for every date-only source string, the due-date conversion
returns the epoch milliseconds of that calendar date at 00:00:00 in the
process-local timezone (offset `tz` seconds east of UTC); this equals the
UTC-midnight epoch milliseconds exactly when the offset is zero.  In
particular, at offset 0, "2023-06-15" maps to 1686787200000. -/
theorem c6_amended_local_midnight (tz : Int) (s : String) (y m d : Nat)
    (h : parseDate (s.data.take 10) = some (y, m, d)) :
    a_to_yt_date tz s =
      some (toString ((((epochDays y m d * 86400 : Nat) : Int) - tz) * 1000)) ∧
    a_to_yt_date 0 "2023-06-15" = some "1686787200000" := by
  refine ⟨?_, by decide⟩
  simp only [a_to_yt_date, h, Option.map_some']

theorem c6_witness :
    parseDate (("2023-06-15" : String).data.take 10) = some (2023, 6, 15) ∧
    a_to_yt_date 0 "2023-06-15" =
      some (toString ((((epochDays 2023 6 15 * 86400 : Nat) : Int) - 0) * 1000)) :=
  ⟨by decide, (c6_amended_local_midnight 0 "2023-06-15" 2023 6 15 (by decide)).1⟩

/-! ## Claim C9: the local JSON cache

get_task_details / get_story_details (src/python/asana2youtrack.py lines
83-96 and 115-129) wrap every record fetch in a try/except around
`open(fname)` + `json.load`.  The on-disk state is modelled as a map from
file name to a `CacheFile`, whose three failure constructors stand for the
kinds of failure the bare `except:` swallows identically. -/

inductive CacheFile (α : Type) where
  | absent
  | unreadable
  | unparsable
  | ok (v : α)
  deriving DecidableEq

/-- The try block: `open(fname)` followed by `json.load` succeeds only on a
present, readable file whose contents parse. -/
def readParse {α : Type} : CacheFile α → Option α
  | .ok v => some v
  | _ => none

def taskFname (id : Nat) : String := "task_" ++ toString id ++ ".json"

def storyFname (id : Nat) : String := "story_" ++ toString id

/-- One get-or-fetch step: return the parsed cache file if the try block
succeeds, otherwise use the fetched record and persist it under `fname`. -/
def getOrFetch {α : Type} (fname : String) (fetched : α)
    (fs : String → CacheFile α) : α × (String → CacheFile α) :=
  match readParse (fs fname) with
  | some v => (v, fs)
  | none => (fetched, fun f => if f = fname then CacheFile.ok fetched else fs f)

/-- get_task_details: loop the get-or-fetch step over the task IDs,
threading the cache directory through; `fetch` stands for
`a_conn.tasks.find_by_id`. -/
def get_task_details {α : Type} (fetch : Nat → α) (fs : String → CacheFile α) :
    List Nat → List α × (String → CacheFile α)
  | [] => ([], fs)
  | id :: rest =>
    let (v, fs₁) := getOrFetch (taskFname id) (fetch id) fs
    let (vs, fs₂) := get_task_details fetch fs₁ rest
    (v :: vs, fs₂)

/-- get_story_details: identical logic with the story file naming (note the
missing `.json` suffix in the source); `fetch` stands for
`a_conn.stories.find_by_id`. -/
def get_story_details {α : Type} (fetch : Nat → α) (fs : String → CacheFile α) :
    List Nat → List α × (String → CacheFile α)
  | [] => ([], fs)
  | id :: rest =>
    let (v, fs₁) := getOrFetch (storyFname id) (fetch id) fs
    let (vs, fs₂) := get_story_details fetch fs₁ rest
    (v :: vs, fs₂)

/-- C9: for every record, the get-or-fetch step returns the parsed cache
file when it exists and parses, leaving the cache untouched; otherwise
(absent, unreadable, or unparsable files, all mapped to the same `none` by
the bare except) it returns the fetched record, persists it under the
record file name, and touches no other file. -/
theorem c9_get_or_fetch {α : Type} (fname : String) (fetched : α)
    (fs : String → CacheFile α) :
    (∀ v, fs fname = CacheFile.ok v → getOrFetch fname fetched fs = (v, fs)) ∧
    (readParse (fs fname) = none →
      (getOrFetch fname fetched fs).1 = fetched ∧
      (getOrFetch fname fetched fs).2 fname = CacheFile.ok fetched ∧
      ∀ g, g ≠ fname → (getOrFetch fname fetched fs).2 g = fs g) ∧
    (readParse (CacheFile.absent : CacheFile α) = none ∧
      readParse (CacheFile.unreadable : CacheFile α) = none ∧
      readParse (CacheFile.unparsable : CacheFile α) = none) := by
  refine ⟨fun v hv => ?_, fun hn => ?_, rfl, rfl, rfl⟩
  · simp [getOrFetch, hv, readParse]
  · refine ⟨?_, ?_, fun g hg => ?_⟩
    · simp [getOrFetch, hn]
    · simp [getOrFetch, hn]
    · simp [getOrFetch, hn, hg]

theorem c9_witness :
    ((fun _ : String => (CacheFile.absent : CacheFile Nat)) (taskFname 3) =
        CacheFile.absent) ∧
    (getOrFetch (taskFname 3) 42 (fun _ => (CacheFile.absent : CacheFile Nat))).1 = 42 ∧
    (getOrFetch (taskFname 3) 42 (fun _ => (CacheFile.absent : CacheFile Nat))).2
        (taskFname 3) = CacheFile.ok 42 :=
  ⟨rfl,
    ((c9_get_or_fetch (taskFname 3) 42 (fun _ => CacheFile.absent)).2.1 rfl).1,
    ((c9_get_or_fetch (taskFname 3) 42 (fun _ => CacheFile.absent)).2.1 rfl).2.1⟩

/-! ## Association-list primitives

The global mapping dicts are embedded as association lists; `aset` updates
the entry for a key in place or appends a fresh one, matching Python dict
assignment. -/

def alookup {κ β : Type} [DecidableEq κ] : List (κ × β) → κ → Option β
  | [], _ => none
  | (k, v) :: m, key => if k = key then some v else alookup m key

def aset {κ β : Type} [DecidableEq κ] : List (κ × β) → κ → β → List (κ × β)
  | [], key, v => [(key, v)]
  | (k, w) :: m, key, v =>
    if k = key then (key, v) :: m else (k, w) :: aset m key v

theorem alookup_aset_self {κ β : Type} [DecidableEq κ]
    (m : List (κ × β)) (k : κ) (v : β) :
    alookup (aset m k v) k = some v := by
  induction m with
  | nil => simp [aset, alookup]
  | cons hd tl ih =>
    obtain ⟨k', w⟩ := hd
    by_cases h : k' = k <;> simp [aset, alookup, h, ih]

theorem alookup_aset_ne {κ β : Type} [DecidableEq κ]
    (m : List (κ × β)) (k k' : κ) (v : β)
    (h : k ≠ k') : alookup (aset m k v) k' = alookup m k' := by
  induction m with
  | nil => simp [aset, alookup, h]
  | cons hd tl ih =>
    obtain ⟨k'', w⟩ := hd
    by_cases h2 : k'' = k
    · subst h2
      simp [aset, alookup, h]
    · simp only [aset, if_neg h2, alookup]
      by_cases h3 : k'' = k' <;> simp [h3, ih]

/-! ## Claim C8: merge_into_map on an empty input list

merge_into_map exists in both source files.  Items are Python dicts
(Asana) or objects (YouTrack), dispatched on the runtime type of the first
element; both are embedded as string-keyed field lists.  The model returns
the updated map together with the lines printed, and an `Except.error` for
a raised exception. -/

inductive MItem where
  | a (fields : List (String × String))
  | yt (fields : List (String × String))
  deriving DecidableEq

def MItem.get? (i : MItem) (k : String) : Option String :=
  match i with
  | .a fields => alookup fields k
  | .yt fields => alookup fields k

structure MEntry where
  a : Option MItem := none
  yt : Option MItem := none
  deriving DecidableEq

/-- The body shared by both versions of merge_into_map once the empty-list
check has been passed: dispatch on the first item, then either dict-merge
(raising `KeyError` when the key is missing, `TypeError` when a non-dict
item is subscripted) or attribute-merge (silently skipping items without
the attribute). -/
def mergeBody (iList : List MItem) (k : String) (map : List (String × MEntry)) :
    Except String (List (String × MEntry)) :=
  let subkeyIsA := match iList.head? with
    | some (.a _) => true
    | _ => false
  if subkeyIsA then
    iList.foldlM (fun acc i =>
      match i with
      | .a fields =>
        match alookup fields k with
        | some v =>
          match alookup acc v with
          | some e => Except.ok (aset acc v { e with a := some i })
          | none => Except.ok (aset acc v { a := some i })
        | none => Except.error "KeyError"
      | .yt _ => Except.error "TypeError") map
  else
    iList.foldlM (fun acc i =>
      match i with
      | .a _ => Except.ok acc
      | .yt fields =>
        match alookup fields k with
        | none => Except.ok acc
        | some v =>
          match alookup acc v with
          | some e => Except.ok (aset acc v { e with yt := some i })
          | none => Except.ok (aset acc v { yt := some i })) map

/-- merge_into_map, src/python/asana2youtrack.py lines 132-153: the empty
list is reported and the function returns with the map untouched. -/
def merge_into_map (iList : List MItem) (k : String) (map : List (String × MEntry)) :
    Except String (List (String × MEntry) × List String) :=
  if iList.length = 0 then
    Except.ok (map, ["ERROR: i_list is empty!"])
  else
    (mergeBody iList k map).map (fun m => (m, []))

/-- merge_into_map, src/asana2youtrack.py lines 67-87: the empty list is
reported but the function does not return, so `i_list[0]` raises
IndexError. -/
def merge_into_map_old (iList : List MItem) (k : String)
    (map : List (String × MEntry)) :
    Except String (List (String × MEntry) × List String) :=
  let logs := if iList.length = 0 then ["ERROR: i_list is empty!"] else []
  match iList.head? with
  | none => Except.error "IndexError: list index out of range"
  | some _ => (mergeBody iList k map).map (fun m => (m, logs))

/-- C8: with an empty input list, the merge operation of
src/python/asana2youtrack.py logs the error and returns without modifying
the map and without raising; the variant in src/asana2youtrack.py prints
the same message but falls through to `i_list[0]` and raises IndexError,
contradicting the claim for that version. -/
theorem c8_merge_empty_list (k : String) (map : List (String × MEntry)) :
    merge_into_map [] k map = Except.ok (map, ["ERROR: i_list is empty!"]) ∧
    merge_into_map_old [] k map =
      Except.error "IndexError: list index out of range" :=
  ⟨rfl, rfl⟩

/-! ## Claim C3: migrate_workspace_users and the importUsers argument

Lines 178-182 of src/python/asana2youtrack.py (and 112-116 of
src/asana2youtrack.py) compute `new_emails = a_emails - yt_emails` and then
build the importUsers argument by iterating over `new_emails` itself, a set
of email strings, subscripting each string with 'email' and 'name'. -/

structure AUser where
  id : Nat
  email : String
  name : String
  deriving DecidableEq

structure YUser where
  login : String
  email : Option String
  deriving DecidableEq

structure ImportedUser where
  login : String
  fullName : String
  email : String
  deriving DecidableEq

/-- Subscripting a Python `str` with a string key, as in `au['name']` when
`au` is an element of the email set: always a TypeError. -/
def strGetItem (_s _k : String) : Except String String :=
  Except.error "TypeError: string indices must be integers"

/-- The filtered comprehension passed to `yt_conn.importUsers`.  Python
evaluates the `if` clause first, so each element hits `au['email']`
before `au['name']`. -/
def importUsersArg (a_users : List AUser) (yt_users : List YUser) :
    Except String (List ImportedUser) :=
  let a_emails := (a_users.map (·.email)).dedup
  let yt_emails := (yt_users.filterMap (·.email)).dedup
  let new_emails := a_emails.filter (fun e => e ∉ yt_emails)
  new_emails.foldlM (fun acc au => do
    let e ← strGetItem au "email"
    if e ∈ new_emails then
      let n ← strGetItem au "name"
      let em ← strGetItem au "email"
      pure (acc ++ [{ login := String.mk (n.data.filter (fun c => ¬ c.isWhitespace)),
                      fullName := n, email := em }])
    else
      pure acc) []

/-- C3: with one source user whose email is not yet on the destination,
`new_emails` is nonempty, and the comprehension building the importUsers
argument raises TypeError on its first element instead of producing the
claimed one-record-per-new-email list (the iteration variable ranges over
the email strings themselves, not the user records). -/
theorem c3_import_users_type_error :
    importUsersArg [⟨1, "ann@example.com", "Ann B"⟩] [] =
      Except.error "TypeError: string indices must be integers" ∧
    (([⟨1, "ann@example.com", "Ann B"⟩] : List AUser).map (·.email)).dedup.filter
        (fun e => e ∉ (([] : List YUser).filterMap (·.email)).dedup) =
      ["ann@example.com"] := by
  constructor
  · rfl
  · decide

/-! ## Claim C4: migrate_projects_to_subsystems

src/python/asana2youtrack.py lines 186-205.  The Identity Mapper chain
`_user_map[_a_users[id]['email']]['yt'].login` (a_id_to_yt_login, lines
78-80) is embedded over the two lookup tables; `_project_map` is the
result of the dict-branch merge of the fetched Asana projects by name
(later yt-side merges never touch the `['a']` side this code reads). -/

structure UEntry where
  ytLogin : Option String := none
  deriving DecidableEq

/-- a_id_to_yt_login: source user ID → source email → destination login;
every missing link raises (KeyError / missing `yt` side). -/
def a_id_to_yt_login (aUsers : List (Nat × AUser))
    (userMap : List (String × UEntry)) (id : Nat) : Except String String :=
  match alookup aUsers id with
  | none => Except.error "KeyError: _a_users"
  | some u =>
    match alookup userMap u.email with
    | none => Except.error "KeyError: _user_map"
    | some e =>
      match e.ytLogin with
      | none => Except.error "KeyError: yt"
      | some l => Except.ok l

structure AProject where
  name : String
  owner : Option Nat
  deriving DecidableEq

structure YSubsystem where
  name : String
  deriving DecidableEq

structure CreatedSub where
  projectId : String
  name : String
  isPrivate : Bool
  defaultLogin : String
  deriving DecidableEq

/-- The `['a']` side of `_project_map` after merging the fetched projects
by name: dict-branch merging overwrites the a-side in list order. -/
def projectMapA (ps : List AProject) : List (String × AProject) :=
  ps.foldl (fun m p => aset m p.name p) []

/-- The creation loop over `new_subs`: resolve the owner of the mapped
project to a destination login and record the
`createSubsystemDetailed(yt_proj.id, ns, False, default_login)` call. -/
def createNewSubs (aUsers : List (Nat × AUser)) (userMap : List (String × UEntry))
    (projId : String) (pm : List (String × AProject)) :
    List String → Except String (List CreatedSub)
  | [] => Except.ok []
  | ns :: rest =>
    match alookup pm ns with
    | none => Except.error "KeyError: _project_map"
    | some p =>
      match p.owner with
      | none => Except.error "TypeError: owner is None"
      | some oid =>
        match a_id_to_yt_login aUsers userMap oid with
        | Except.error e => Except.error e
        | Except.ok login =>
          match createNewSubs aUsers userMap projId pm rest with
          | Except.error e => Except.error e
          | Except.ok tail =>
            Except.ok ({ projectId := projId, name := ns, isPrivate := false,
                         defaultLogin := login } :: tail)

/-- migrate_projects_to_issues lines 199-205: `new_subs` is the name set
difference, and each new name is created exactly once, non-private, with
the resolved owner login as default assignee. -/
def migrate_projects_to_subsystems (aUsers : List (Nat × AUser))
    (userMap : List (String × UEntry)) (projId : String)
    (a_projects : List AProject) (yt_subs : List YSubsystem) :
    Except String (List CreatedSub) :=
  let pm := projectMapA a_projects
  let new_subs :=
    ((a_projects.map (·.name)).dedup).filter (fun n => n ∉ yt_subs.map (·.name))
  createNewSubs aUsers userMap projId pm new_subs

theorem createNewSubs_ok (aUsers : List (Nat × AUser))
    (userMap : List (String × UEntry)) (projId : String)
    (pm : List (String × AProject)) :
    ∀ (l : List String) (created : List CreatedSub),
      createNewSubs aUsers userMap projId pm l = Except.ok created →
      created.map (·.name) = l ∧
      ∀ c ∈ created, c.isPrivate = false ∧ c.projectId = projId ∧
        ∃ p oid, alookup pm c.name = some p ∧ p.owner = some oid ∧
          a_id_to_yt_login aUsers userMap oid = Except.ok c.defaultLogin
  | [], created => by
    intro h
    simp only [createNewSubs, Except.ok.injEq] at h
    subst h
    simp
  | ns :: rest, created => by
    intro h
    cases h1 : alookup pm ns with
    | none =>
      simp only [createNewSubs, h1] at h
      exact Except.noConfusion h
    | some p =>
      cases h2 : p.owner with
      | none =>
        simp only [createNewSubs, h1, h2] at h
        exact Except.noConfusion h
      | some oid =>
        cases h3 : a_id_to_yt_login aUsers userMap oid with
        | error e =>
          simp only [createNewSubs, h1, h2, h3] at h
          exact Except.noConfusion h
        | ok login =>
          cases h4 : createNewSubs aUsers userMap projId pm rest with
          | error e =>
            simp only [createNewSubs, h1, h2, h3, h4] at h
            exact Except.noConfusion h
          | ok tail =>
            obtain ⟨hnames, hprops⟩ :=
              createNewSubs_ok aUsers userMap projId pm rest tail h4
            simp only [createNewSubs, h1, h2, h3, h4, Except.ok.injEq] at h
            subst h
            refine ⟨by simpa using hnames, ?_⟩
            intro c hc
            cases hc with
            | head => exact ⟨rfl, rfl, p, oid, h1, h2, h3⟩
            | tail _ hmem => exact hprops c hmem

/-- C4: when migrate_projects_to_subsystems succeeds, the created
subsystems are exactly one per distinct source project name missing from
the destination (no duplicates, none for names already present), each
non-private, in the given parent project, and with default-assignee login
resolved from the mapped project owner through the source-ID → source
email → destination login chain. -/
theorem c4_subsystem_creation (aUsers : List (Nat × AUser))
    (userMap : List (String × UEntry)) (projId : String)
    (a_projects : List AProject) (yt_subs : List YSubsystem)
    (created : List CreatedSub)
    (h : migrate_projects_to_subsystems aUsers userMap projId a_projects yt_subs =
      Except.ok created) :
    created.map (·.name) =
      ((a_projects.map (·.name)).dedup).filter (fun n => n ∉ yt_subs.map (·.name)) ∧
    (created.map (·.name)).Nodup ∧
    (∀ n, n ∈ created.map (·.name) ↔
      (n ∈ a_projects.map (·.name) ∧ n ∉ yt_subs.map (·.name))) ∧
    ∀ c ∈ created, c.isPrivate = false ∧ c.projectId = projId ∧
      ∃ p oid, alookup (projectMapA a_projects) c.name = some p ∧
        p.owner = some oid ∧
        a_id_to_yt_login aUsers userMap oid = Except.ok c.defaultLogin := by
  have h' : createNewSubs aUsers userMap projId (projectMapA a_projects)
      (((a_projects.map (·.name)).dedup).filter
        (fun n => n ∉ yt_subs.map (·.name))) = Except.ok created := h
  obtain ⟨hnames, hprops⟩ := createNewSubs_ok aUsers userMap projId
    (projectMapA a_projects)
    (((a_projects.map (·.name)).dedup).filter (fun n => n ∉ yt_subs.map (·.name)))
    created h'
  refine ⟨hnames, ?_, ?_, hprops⟩
  · rw [hnames]
    exact (List.nodup_dedup _).filter _
  · intro n
    rw [hnames]
    simp [List.mem_filter, List.mem_dedup]

def c4aUsers : List (Nat × AUser) := [(1, ⟨1, "owner@example.com", "Owner One"⟩)]

def c4userMap : List (String × UEntry) := [("owner@example.com", ⟨some "owner"⟩)]

def c4projects : List AProject := [⟨"Sub1", some 1⟩]

theorem c4_witness :
    migrate_projects_to_subsystems c4aUsers c4userMap "P" c4projects [] =
      Except.ok [{ projectId := "P", name := "Sub1", isPrivate := false,
                   defaultLogin := "owner" }] ∧
    ([{ projectId := "P", name := "Sub1", isPrivate := false,
        defaultLogin := "owner" }] : List CreatedSub).map (·.name) =
      ((c4projects.map (·.name)).dedup).filter
        (fun n => n ∉ ([] : List YSubsystem).map (·.name)) :=
  ⟨rfl, (c4_subsystem_creation c4aUsers c4userMap "P" c4projects [] _ rfl).1⟩

/-! ## migrate_tasks_to_issues (src/python/asana2youtrack.py lines 208-321)

The per-user loop is embedded as a fold over the known users.  A source
task record carries the fields this function reads; note the two
differently spelled fields `asignee` (the literal key probed by
`a.get('asignee', None)` on line 282, absent on real Asana tasks) and
`assignee` (the real `a['assignee']` dict, holding the user ID).
Destination issues keep `numberInProject` as the number the string field
stores.  The three merge_into_map call sites (lines 225, 235, 236) are
embedded as their statically-known branches. -/

structure Story where
  type : String
  text : String
  created_by : Nat
  deriving DecidableEq

structure ATask where
  id : Nat
  name : String
  notes : String := ""
  completed : Bool := false
  asignee : Option Nat := none
  assignee : Option Nat := none
  projects : List String := []
  stories : List Story := []
  deriving DecidableEq

structure YIssue where
  numberInProject : Nat
  summary : String
  assignee : String
  AsanaID : Option String := none
  deriving DecidableEq

structure NewIssue where
  AsanaID : String
  numberInProject : Nat
  summary : String
  description : String
  state : String
  subsystem : Option String
  deriving DecidableEq

/-- Entry of `_task_map`: an `a` side from the dict-branch merge of the
Asana tasks by name and a `yt` side from the object-branch merge of the
fetched YouTrack issues by summary. -/
structure TEntry where
  a : Option ATask := none
  yt : Option YIssue := none
  deriving DecidableEq

/-- Entry of `_asana_id_map`: only YouTrack issues are ever merged into
it, keyed by their AsanaID field; line 249 consults only key membership. -/
structure IdEntry where
  yt : Option YIssue := none
  deriving DecidableEq

/-- merge_into_map(a_tasks, 'name', _task_map) — dict branch, line 225;
every task dict carries 'name'. -/
def mergeTasksByName (ts : List ATask) (m : List (String × TEntry)) :
    List (String × TEntry) :=
  ts.foldl (fun m t =>
    match alookup m t.name with
    | some e => aset m t.name { e with a := some t }
    | none => aset m t.name { a := some t }) m

/-- merge_into_map(yt_issues, 'summary', _task_map) — object branch, line
235; every issue object carries 'summary'. -/
def mergeIssuesBySummary (issues : List YIssue) (m : List (String × TEntry)) :
    List (String × TEntry) :=
  issues.foldl (fun m i =>
    match alookup m i.summary with
    | some e => aset m i.summary { e with yt := some i }
    | none => aset m i.summary { yt := some i }) m

/-- merge_into_map(yt_issues, 'AsanaID', _asana_id_map) — object branch,
line 236; issues without the attribute are silently skipped. -/
def mergeIssuesByAsanaID (issues : List YIssue) (m : List (String × IdEntry)) :
    List (String × IdEntry) :=
  issues.foldl (fun m i =>
    match i.AsanaID with
    | none => m
    | some v =>
      match alookup m v with
      | some e => aset m v { e with yt := some i }
      | none => aset m v { yt := some i }) m

/-- Modelled from the spec: the destination API operation
`list issues by project+query+offset+limit` consumed at line 233 as
`yt_conn.getIssues(yt_proj.id, "Assignee: login", 0, 1000)` — the window
of matching issues starting at `offset`, at most `limit` long. -/
def getIssues (issues : List YIssue) (login : String) (offset limit : Nat) :
    List YIssue :=
  ((issues.filter (fun i => i.assignee == login)).drop offset).take limit

/-- Line 249: skip the task when its name already maps to an entry with a
`yt` side or its stringified ID is a key of `_asana_id_map`. -/
def skipTask (tm : List (String × TEntry)) (im : List (String × IdEntry))
    (a : ATask) : Bool :=
  (match alookup tm a.name with
   | some e => e.yt.isSome
   | none => false)
  || (alookup im (toString a.id)).isSome

/-- Construction of the new issue (lines 287-317) restricted to the fields
the sequencing and deduplication claims are about; reporter, comments,
assignee and the converted timestamps are built by the separately embedded
helpers (computeReporter, a_to_yt_time, a_to_yt_date). -/
def buildIssue (nip : Nat) (a : ATask) : NewIssue :=
  { AsanaID := toString a.id
    numberInProject := nip
    summary := a.name
    description := a.notes
    state := if a.completed then "Fixed" else "Submitted"
    subsystem := a.projects.head? }

/-- The inner `for a in a_tasks` loop (lines 247-318): each task either
gets skipped or becomes a new issue numbered by the running counter. -/
def processTasks (tm : List (String × TEntry)) (im : List (String × IdEntry)) :
    Nat → List ATask → Nat × List (ATask × Option NewIssue)
  | nip, [] => (nip, [])
  | nip, a :: rest =>
    if skipTask tm im a then
      ((processTasks tm im nip rest).1, (a, none) :: (processTasks tm im nip rest).2)
    else
      ((processTasks tm im (nip + 1) rest).1,
        (a, some (buildIssue nip a)) :: (processTasks tm im (nip + 1) rest).2)

/-- One user of the `_a_users` iteration: the resolved destination login
used in the assignee filter and the tasks fetched for that user. -/
structure UserWork where
  login : String
  tasks : List ATask
  deriving DecidableEq

structure MigState where
  taskMap : List (String × TEntry) := []
  asanaIdMap : List (String × IdEntry) := []
  nip : Nat := 0
  deriving DecidableEq

def initState : MigState := {}

/-- The body of the per-user loop (lines 215-321): skip users with no
tasks, merge tasks and fetched issues into the maps, continue the sequence
counter from the maximum fetched numberInProject plus one, then process
the tasks. -/
def userStep (dest : List YIssue) (st : MigState) (u : UserWork) :
    MigState × List (ATask × Option NewIssue) :=
  if u.tasks.isEmpty then (st, [])
  else
    let tm₁ := mergeTasksByName u.tasks st.taskMap
    let fetched := getIssues dest u.login 0 1000
    let tm₂ := mergeIssuesBySummary fetched tm₁
    let im₁ := mergeIssuesByAsanaID fetched st.asanaIdMap
    let nip₁ := (fetched.foldl (fun n i => max n i.numberInProject) st.nip) + 1
    ({ taskMap := tm₂, asanaIdMap := im₁,
       nip := (processTasks tm₂ im₁ nip₁ u.tasks).1 },
      (processTasks tm₂ im₁ nip₁ u.tasks).2)

/-- The whole user loop: per-user outcome lists plus the final state. -/
def migrateRun (dest : List YIssue) (st : MigState) :
    List UserWork → List (List (ATask × Option NewIssue)) × MigState
  | [] => ([], st)
  | u :: rest =>
    ((userStep dest st u).2 :: (migrateRun dest (userStep dest st u).1 rest).1,
      (migrateRun dest (userStep dest st u).1 rest).2)

/-- migrate_tasks_to_issues over one destination project, starting from
fresh maps and a zero counter. -/
def migrate_tasks_to_issues (dest : List YIssue) (users : List UserWork) :
    List (List (ATask × Option NewIssue)) × MigState :=
  migrateRun dest initState users

/-- The `new_issues` list handed to `yt_conn.importIssues` for one user. -/
def importBatch (out : List (ATask × Option NewIssue)) : List NewIssue :=
  out.filterMap (·.2)

/-- State reached after processing a prefix of users. -/
def stateAfter (dest : List YIssue) : MigState → List UserWork → MigState
  | st, [] => st
  | st, u :: rest => stateAfter dest (userStep dest st u).1 rest

/-- All issues created during the run, in creation order. -/
def allCreated (dest : List YIssue) (users : List UserWork) : List NewIssue :=
  ((migrate_tasks_to_issues dest users).1.map importBatch).flatten

/-! ## Claim C1: duplicate suppression -/

/-- The entry at key `n` has a `yt` side. -/
def hasYt (m : List (String × TEntry)) (n : String) : Prop :=
  ∃ e, alookup m n = some e ∧ e.yt.isSome

theorem mergeIssuesBySummary_preserves (issues : List YIssue) :
    ∀ (m : List (String × TEntry)) (n : String),
      hasYt m n → hasYt (mergeIssuesBySummary issues m) n := by
  induction issues with
  | nil => intro m n h; exact h
  | cons i rest ih =>
    intro m n h
    simp only [mergeIssuesBySummary, List.foldl_cons]
    apply ih
    rcases h with ⟨e, he, hyt⟩
    by_cases hs : i.summary = n
    · subst hs
      cases halk : alookup m i.summary with
      | some e' =>
        exact ⟨{ e' with yt := some i }, by simp [halk, alookup_aset_self], rfl⟩
      | none =>
        exact ⟨{ yt := some i }, by simp [halk, alookup_aset_self], rfl⟩
    · cases halk : alookup m i.summary with
      | some e' =>
        exact ⟨e, by simp [halk, alookup_aset_ne _ _ _ _ hs, he], hyt⟩
      | none =>
        exact ⟨e, by simp [halk, alookup_aset_ne _ _ _ _ hs, he], hyt⟩

theorem mergeIssuesBySummary_mem (issues : List YIssue) :
    ∀ (m : List (String × TEntry)) (i : YIssue),
      i ∈ issues → hasYt (mergeIssuesBySummary issues m) i.summary := by
  induction issues with
  | nil => intro m i h; cases h
  | cons j rest ih =>
    intro m i h
    simp only [mergeIssuesBySummary, List.foldl_cons]
    cases h with
    | head =>
      apply mergeIssuesBySummary_preserves
      cases halk : alookup m j.summary with
      | some e =>
        exact ⟨{ e with yt := some j }, by simp [halk, alookup_aset_self], rfl⟩
      | none =>
        exact ⟨{ yt := some j }, by simp [halk, alookup_aset_self], rfl⟩
    | tail _ hmem => exact ih _ i hmem

/-- The map has an entry for key `s`. -/
def hasKey (m : List (String × IdEntry)) (s : String) : Prop :=
  (alookup m s).isSome

theorem mergeIssuesByAsanaID_preserves (issues : List YIssue) :
    ∀ (m : List (String × IdEntry)) (s : String),
      hasKey m s → hasKey (mergeIssuesByAsanaID issues m) s := by
  induction issues with
  | nil => intro m s h; exact h
  | cons i rest ih =>
    intro m s h
    simp only [mergeIssuesByAsanaID, List.foldl_cons]
    apply ih
    cases hid : i.AsanaID with
    | none => exact h
    | some v =>
      by_cases hv : v = s
      · subst hv
        cases halk : alookup m v with
        | some e => simp [hasKey, halk, alookup_aset_self]
        | none => simp [hasKey, halk, alookup_aset_self]
      · cases halk : alookup m v with
        | some e => simpa [hasKey, halk, alookup_aset_ne _ _ _ _ hv] using h
        | none => simpa [hasKey, halk, alookup_aset_ne _ _ _ _ hv] using h

theorem mergeIssuesByAsanaID_mem (issues : List YIssue) :
    ∀ (m : List (String × IdEntry)) (i : YIssue) (s : String),
      i ∈ issues → i.AsanaID = some s →
      hasKey (mergeIssuesByAsanaID issues m) s := by
  induction issues with
  | nil => intro m i s h; cases h
  | cons j rest ih =>
    intro m i s h hid
    simp only [mergeIssuesByAsanaID, List.foldl_cons]
    cases h with
    | head =>
      apply mergeIssuesByAsanaID_preserves
      rw [hid]
      cases halk : alookup m s with
      | some e => simp [hasKey, halk, alookup_aset_self]
      | none => simp [hasKey, halk, alookup_aset_self]
    | tail _ hmem => exact ih _ i s hmem hid

theorem processTasks_skip (tm : List (String × TEntry))
    (im : List (String × IdEntry)) :
    ∀ (ts : List ATask) (nip : Nat) (a : ATask) (res : Option NewIssue),
      (a, res) ∈ (processTasks tm im nip ts).2 → skipTask tm im a = true →
      res = none := by
  intro ts
  induction ts with
  | nil => intro nip a res hmem; simp [processTasks] at hmem
  | cons t rest ih =>
    intro nip a res hmem hskip
    by_cases h : skipTask tm im t
    · rw [processTasks, if_pos h] at hmem
      cases hmem with
      | head => rfl
      | tail _ hmem2 => exact ih nip a res hmem2 hskip
    · rw [processTasks, if_neg h] at hmem
      cases hmem with
      | head => exact absurd hskip (by simpa using h)
      | tail _ hmem2 => exact ih (nip + 1) a res hmem2 hskip

theorem migrateRun_outs_get (dest : List YIssue) :
    ∀ (pre : List UserWork) (st : MigState) (u : UserWork) (post : List UserWork),
      ((migrateRun dest st (pre ++ u :: post)).1).get? pre.length =
        some ((userStep dest (stateAfter dest st pre) u).2) := by
  intro pre
  induction pre with
  | nil => intro st u post; rfl
  | cons p pre2 ih =>
    intro st u post
    simpa [migrateRun, stateAfter] using ih (userStep dest st p).1 u post

/-- C1: in a run of the task migrator, for every processed user and every
task of that user, when some issue fetched for that user matches the task
by exact summary or carries the stringified task ID in its AsanaID field,
every outcome recorded for that task is a skip (no new issue), and the
bulk-import batch holds only issues of non-skipped outcomes; both match paths
suppress creation on their own. -/
theorem c1_duplicate_suppression (dest : List YIssue) (users : List UserWork)
    (pre post : List UserWork) (u : UserWork)
    (husers : users = pre ++ u :: post)
    (out : List (ATask × Option NewIssue))
    (hout : (migrate_tasks_to_issues dest users).1.get? pre.length = some out)
    (a : ATask)
    (hmatch : ∃ i ∈ getIssues dest u.login 0 1000,
      i.summary = a.name ∨ i.AsanaID = some (toString a.id)) :
    (∀ res, (a, res) ∈ out → res = none) ∧
    ∀ nI ∈ importBatch out, ∃ t, (t, some nI) ∈ out := by
  subst husers
  rw [migrate_tasks_to_issues, migrateRun_outs_get dest pre initState u post,
    Option.some.injEq] at hout
  subst hout
  constructor
  · intro res hmem
    by_cases hempty : u.tasks.isEmpty
    · simp [userStep, hempty] at hmem
    · simp only [userStep, if_neg hempty] at hmem
      apply processTasks_skip _ _ u.tasks _ a res hmem
      obtain ⟨i, hi, hcase⟩ := hmatch
      simp only [skipTask, Bool.or_eq_true]
      cases hcase with
      | inl hsum =>
        left
        have hy := mergeIssuesBySummary_mem (getIssues dest u.login 0 1000)
          (mergeTasksByName u.tasks (stateAfter dest initState pre).taskMap) i hi
        rw [hsum] at hy
        obtain ⟨e, he, hyt⟩ := hy
        rw [he]
        exact hyt
      | inr hid =>
        right
        have hk := mergeIssuesByAsanaID_mem (getIssues dest u.login 0 1000)
          (stateAfter dest initState pre).asanaIdMap i (toString a.id) hi hid
        simpa [hasKey] using hk
  · intro nI hnI
    rw [importBatch, List.mem_filterMap] at hnI
    obtain ⟨⟨t, r⟩, hpr, hr⟩ := hnI
    have hr2 : r = some nI := hr
    subst hr2
    exact ⟨t, hpr⟩

def c1dest : List YIssue :=
  [{ numberInProject := 4, summary := "Fix login", assignee := "bob",
     AsanaID := some "77" }]

def c1user : UserWork :=
  { login := "bob", tasks := [{ id := 9, name := "Fix login" }] }

def c1out : List (ATask × Option NewIssue) :=
  [({ id := 9, name := "Fix login" }, none)]

theorem c1_witness :
    ([c1user] : List UserWork) = [] ++ c1user :: [] ∧
    (migrate_tasks_to_issues c1dest [c1user]).1.get? 0 = some c1out ∧
    (∃ i ∈ getIssues c1dest c1user.login 0 1000,
      i.summary = ({ id := 9, name := "Fix login" } : ATask).name ∨
        i.AsanaID = some (toString ({ id := 9, name := "Fix login" } : ATask).id)) ∧
    (∀ res, (({ id := 9, name := "Fix login" } : ATask), res) ∈ c1out → res = none) :=
  ⟨rfl, by decide, by decide,
    (c1_duplicate_suppression c1dest [c1user] [] [] c1user rfl c1out
      (by decide) { id := 9, name := "Fix login" } (by decide)).1⟩

/-! ## Claim C2: sequence numbering -/

theorem isEmpty_false_of_ne_nil {α : Type} {l : List α} (h : l ≠ []) :
    l.isEmpty = false := by
  cases l with
  | nil => exact absurd rfl h
  | cons a t => rfl

theorem foldl_max_le_init (l : List YIssue) :
    ∀ acc : Nat, acc ≤ l.foldl (fun n i => max n i.numberInProject) acc := by
  induction l with
  | nil => intro acc; exact Nat.le_refl acc
  | cons i rest ih =>
    intro acc
    exact le_trans (Nat.le_max_left _ _) (ih (max acc i.numberInProject))

theorem foldl_max_mem (l : List YIssue) :
    ∀ (acc : Nat) (i : YIssue), i ∈ l →
      i.numberInProject ≤ l.foldl (fun n j => max n j.numberInProject) acc := by
  induction l with
  | nil => intro acc i h; cases h
  | cons j rest ih =>
    intro acc i h
    cases h with
    | head => exact le_trans (Nat.le_max_right acc _) (foldl_max_le_init rest _)
    | tail _ hmem => exact ih _ i hmem

theorem processTasks_nip_le (tm : List (String × TEntry))
    (im : List (String × IdEntry)) :
    ∀ (ts : List ATask) (nip : Nat), nip ≤ (processTasks tm im nip ts).1 := by
  intro ts
  induction ts with
  | nil => intro nip; exact Nat.le_refl _
  | cons t rest ih =>
    intro nip
    by_cases h : skipTask tm im t
    · rw [processTasks, if_pos h]; exact ih nip
    · rw [processTasks, if_neg h]
      exact le_trans (Nat.le_succ nip) (ih (nip + 1))

theorem processTasks_created_bounds (tm : List (String × TEntry))
    (im : List (String × IdEntry)) :
    ∀ (ts : List ATask) (nip : Nat) (n : NewIssue),
      n ∈ importBatch (processTasks tm im nip ts).2 →
      nip ≤ n.numberInProject ∧ n.numberInProject < (processTasks tm im nip ts).1 := by
  intro ts
  induction ts with
  | nil => intro nip n h; simp [processTasks, importBatch] at h
  | cons t rest ih =>
    intro nip n h
    by_cases hs : skipTask tm im t
    · rw [processTasks, if_pos hs] at h ⊢
      simp only [importBatch, List.filterMap_cons] at h
      exact ih nip n h
    · rw [processTasks, if_neg hs] at h ⊢
      simp only [importBatch, List.filterMap_cons] at h
      cases h with
      | head =>
        refine ⟨Nat.le_refl _, ?_⟩
        exact lt_of_lt_of_le (Nat.lt_succ_self _) (processTasks_nip_le tm im rest (nip + 1))
      | tail _ h2 =>
        obtain ⟨hlo, hhi⟩ := ih (nip + 1) n h2
        exact ⟨le_trans (Nat.le_succ nip) hlo, hhi⟩

theorem processTasks_created_pairwise (tm : List (String × TEntry))
    (im : List (String × IdEntry)) :
    ∀ (ts : List ATask) (nip : Nat),
      ((importBatch (processTasks tm im nip ts).2).map
        (·.numberInProject)).Pairwise (· < ·) := by
  intro ts
  induction ts with
  | nil => intro nip; simp [processTasks, importBatch]
  | cons t rest ih =>
    intro nip
    by_cases hs : skipTask tm im t
    · rw [processTasks, if_pos hs]
      simpa only [importBatch, List.filterMap_cons] using ih nip
    · rw [processTasks, if_neg hs]
      simp only [importBatch, List.filterMap_cons, List.map_cons]
      rw [List.pairwise_cons]
      refine ⟨?_, by simpa only [importBatch] using ih (nip + 1)⟩
      intro x hx
      obtain ⟨n, hn, rfl⟩ := List.mem_map.mp hx
      have hlo := (processTasks_created_bounds tm im rest (nip + 1) n
        (by simpa only [importBatch] using hn)).1
      exact lt_of_lt_of_le (Nat.lt_succ_self _) hlo

theorem userStep_nip_mono (dest : List YIssue) (st : MigState) (u : UserWork) :
    st.nip ≤ (userStep dest st u).1.nip := by
  by_cases h : u.tasks.isEmpty
  · simp [userStep, h]
  · simp only [userStep, if_neg h]
    exact le_trans (le_trans (foldl_max_le_init _ st.nip) (Nat.le_succ _))
      (processTasks_nip_le _ _ u.tasks _)

theorem userStep_fetched_lt (dest : List YIssue) (st : MigState) (u : UserWork)
    (h : u.tasks ≠ []) :
    ∀ i ∈ getIssues dest u.login 0 1000,
      i.numberInProject < (userStep dest st u).1.nip := by
  intro i hi
  have hne : ¬ u.tasks.isEmpty = true := by
    rw [isEmpty_false_of_ne_nil h]; exact Bool.false_ne_true
  simp only [userStep, if_neg hne]
  exact lt_of_lt_of_le (Nat.lt_succ_of_le (foldl_max_mem _ st.nip i hi))
    (processTasks_nip_le _ _ u.tasks _)

theorem userStep_batch_bounds (dest : List YIssue) (st : MigState) (u : UserWork) :
    ∀ n ∈ importBatch (userStep dest st u).2,
      st.nip < n.numberInProject ∧
      n.numberInProject < (userStep dest st u).1.nip ∧
      ∀ i ∈ getIssues dest u.login 0 1000,
        i.numberInProject < n.numberInProject := by
  intro n hn
  by_cases h : u.tasks.isEmpty
  · simp [userStep, h, importBatch] at hn
  · simp only [userStep, if_neg h] at hn ⊢
    obtain ⟨hlo, hhi⟩ := processTasks_created_bounds _ _ u.tasks _ n hn
    refine ⟨?_, hhi, ?_⟩
    · exact lt_of_lt_of_le (Nat.lt_succ_of_le (foldl_max_le_init _ st.nip)) hlo
    · intro i hi
      exact lt_of_lt_of_le (Nat.lt_succ_of_le (foldl_max_mem _ st.nip i hi)) hlo

theorem userStep_batch_pairwise (dest : List YIssue) (st : MigState) (u : UserWork) :
    ((importBatch (userStep dest st u).2).map (·.numberInProject)).Pairwise (· < ·) := by
  by_cases h : u.tasks.isEmpty
  · simp [userStep, h, importBatch]
  · simp only [userStep, if_neg h]
    exact processTasks_created_pairwise _ _ u.tasks _

theorem stateAfter_nip_mono (dest : List YIssue) :
    ∀ (l : List UserWork) (st : MigState), st.nip ≤ (stateAfter dest st l).nip := by
  intro l
  induction l with
  | nil => intro st; exact Nat.le_refl _
  | cons u rest ih =>
    intro st
    exact le_trans (userStep_nip_mono dest st u) (ih (userStep dest st u).1)

theorem stateAfter_fetched_lt (dest : List YIssue) :
    ∀ (l : List UserWork) (st : MigState) (u' : UserWork),
      u' ∈ l → u'.tasks ≠ [] →
      ∀ i ∈ getIssues dest u'.login 0 1000,
        i.numberInProject < (stateAfter dest st l).nip := by
  intro l
  induction l with
  | nil => intro st u' h; cases h
  | cons u rest ih =>
    intro st u' hmem hne i hi
    cases hmem with
    | head =>
      exact lt_of_lt_of_le (userStep_fetched_lt dest st u hne i hi)
        (stateAfter_nip_mono dest rest (userStep dest st u).1)
    | tail _ hmem2 => exact ih (userStep dest st u).1 u' hmem2 hne i hi

/-- Sequence numbers created by a run started in state `st`. -/
def runCreatedNums (dest : List YIssue) (st : MigState) (us : List UserWork) :
    List Nat :=
  (((migrateRun dest st us).1).map importBatch).flatten.map (·.numberInProject)

theorem migrateRun_nums (dest : List YIssue) :
    ∀ (us : List UserWork) (st : MigState),
      (runCreatedNums dest st us).Pairwise (· < ·) ∧
      ∀ x ∈ runCreatedNums dest st us, st.nip < x := by
  intro us
  induction us with
  | nil =>
    intro st
    constructor
    · simp [runCreatedNums, migrateRun]
    · simp [runCreatedNums, migrateRun]
  | cons u rest ih =>
    intro st
    have hbounds := userStep_batch_bounds dest st u
    obtain ⟨ihp, ihlt⟩ := ih (userStep dest st u).1
    have hexpand : runCreatedNums dest st (u :: rest) =
        ((importBatch (userStep dest st u).2).map (·.numberInProject)) ++
          runCreatedNums dest (userStep dest st u).1 rest := by
      simp [runCreatedNums, migrateRun]
    rw [hexpand]
    constructor
    · rw [List.pairwise_append]
      refine ⟨userStep_batch_pairwise dest st u, ihp, ?_⟩
      intro x hx y hy
      obtain ⟨n, hn, rfl⟩ := List.mem_map.mp hx
      exact lt_trans (hbounds n hn).2.1 (ihlt y hy)
    · intro x hx
      rcases List.mem_append.mp hx with hx | hx
      · obtain ⟨n, hn, rfl⟩ := List.mem_map.mp hx
        exact (hbounds n hn).1
      · exact lt_of_le_of_lt (userStep_nip_mono dest st u) (ihlt x hx)

/-- C2 amended: within one run, the sequence numbers of the created issues
are strictly increasing in creation order (hence pairwise distinct), and
every created number strictly exceeds every sequence number among the
issues retrieved for the users processed up to and including the one being
processed.  The numbers of pre-existing issues the run never retrieves
(filtered out by assignee, beyond the 1000-issue window, or fetched only
for later users) can collide with created numbers, and the first number
assigned can exceed the observed maximum by more than one, so the stated
claim holds only in this weakened form. -/
theorem c2_amended_sequence_numbers (dest : List YIssue) (users : List UserWork) :
    ((allCreated dest users).map (·.numberInProject)).Pairwise (· < ·) ∧
    ∀ (pre post : List UserWork) (u : UserWork), users = pre ++ u :: post →
      ∀ out, (migrate_tasks_to_issues dest users).1.get? pre.length = some out →
      ∀ n ∈ importBatch out,
        ∀ u', (u' ∈ pre ∨ u' = u) → u'.tasks ≠ [] →
          ∀ i ∈ getIssues dest u'.login 0 1000,
            i.numberInProject < n.numberInProject := by
  constructor
  · exact (migrateRun_nums dest users initState).1
  · intro pre post u husers out hout n hn u' hu' hne i hi
    subst husers
    rw [migrate_tasks_to_issues, migrateRun_outs_get dest pre initState u post,
      Option.some.injEq] at hout
    subst hout
    have hbounds := userStep_batch_bounds dest (stateAfter dest initState pre) u n hn
    cases hu' with
    | inl hpre =>
      exact lt_trans (stateAfter_fetched_lt dest pre initState u' hpre hne i hi)
        hbounds.1
    | inr hself =>
      subst hself
      exact hbounds.2.2 i hi

def c2task1 : ATask := { id := 1, name := "T1" }

def c2task2 : ATask := { id := 2, name := "T2" }

def c2task3 : ATask := { id := 3, name := "T3" }

def c2u1 : UserWork := { login := "u1", tasks := [c2task1] }

def c2u2 : UserWork := { login := "u2", tasks := [c2task2] }

def c2u3 : UserWork := { login := "u3", tasks := [c2task3] }

def c2dest : List YIssue :=
  [{ numberInProject := 5, summary := "T1", assignee := "u1" },
   { numberInProject := 7, summary := "X", assignee := "u3" }]

def c2users : List UserWork := [c2u1, c2u2, c2u3]

/-- C2 counterexample: in this run the created issues receive numbers 7
and 9, but the destination project already holds an issue numbered 7
(assigned to a user processed later, so not yet observed when 7 was
assigned) — the created numbers are not unique against all pre-existing
issues of the project, refuting the claim as stated; the same input also
shows the first assigned number (7) differing from one-plus-the-maximum
observed before the first creation (5 + 1 = 6). -/
theorem c2_counterexample :
    (allCreated c2dest c2users).map (·.numberInProject) = [7, 9] ∧
    c2dest.map (·.numberInProject) = [5, 7] ∧
    (7 : Nat) ∈ (allCreated c2dest c2users).map (·.numberInProject) ∧
    (7 : Nat) ∈ c2dest.map (·.numberInProject) := by
  refine ⟨by decide, by decide, by decide, by decide⟩

def c2newIssue : NewIssue :=
  { AsanaID := "2", numberInProject := 7, summary := "T2", description := "",
    state := "Submitted", subsystem := none }

def c2out2 : List (ATask × Option NewIssue) := [(c2task2, some c2newIssue)]

theorem c2_amended_witness :
    (c2users = [c2u1] ++ c2u2 :: [c2u3]) ∧
    ((migrate_tasks_to_issues c2dest c2users).1.get? 1 = some c2out2) ∧
    (c2newIssue ∈ importBatch c2out2) ∧
    (c2u1 ∈ [c2u1] ∨ c2u1 = c2u2) ∧ (c2u1.tasks ≠ []) ∧
    (({ numberInProject := 5, summary := "T1", assignee := "u1" } : YIssue) ∈
      getIssues c2dest c2u1.login 0 1000) ∧
    ({ numberInProject := 5, summary := "T1", assignee := "u1" } : YIssue).numberInProject <
      c2newIssue.numberInProject :=
  ⟨rfl, by decide, by decide, Or.inl (by decide), by decide, by decide,
    (c2_amended_sequence_numbers c2dest c2users).2 [c2u1] [c2u3] c2u2 rfl
      c2out2 (by decide) c2newIssue (by decide) c2u1 (Or.inl (by decide))
      (by decide) { numberInProject := 5, summary := "T1", assignee := "u1" }
      (by decide)⟩

/-! ## Claim C5: reporter resolution (lines 260-285)

The story scan sets the reporter from the first system story whose first
nine characters are one of the three trigger prefixes; the fallback (lines
281-285) probes the literal key `'asignee'` — a misspelling of the
`'assignee'` key real tasks carry — before reading `a['assignee']['id']`. -/

/-- Line 270: `s['type'] == 'system' and s['text'][:9] in ['assigned ',
'added to ', 'added sub']` (the reporter-is-None conjunct is realised by
taking the first match). -/
def storyQualifies (s : Story) : Bool :=
  s.type == "system" &&
    (s.text.data.take 9 == "assigned ".data ||
      s.text.data.take 9 == "added to ".data ||
      s.text.data.take 9 == "added sub".data)

/-- The author ID of the first qualifying system story, if any. -/
def reporterFromStories (stories : List Story) : Option Nat :=
  (stories.find? storyQualifies).map (·.created_by)

/-- Lines 260-285: the reporter chosen for the new issue.  The fallback
branch checks `a.get('asignee', None) is not None` and only then reads
`a['assignee']['id']`; otherwise the operator login `yt_login` is used. -/
def computeReporter (aUsers : List (Nat × AUser))
    (userMap : List (String × UEntry)) (yt_login : String) (a : ATask)
    (stories : List Story) : Except String String :=
  match reporterFromStories stories with
  | some uid => a_id_to_yt_login aUsers userMap uid
  | none =>
    if a.asignee.isSome then
      match a.assignee with
      | some uid => a_id_to_yt_login aUsers userMap uid
      | none => Except.error "KeyError: assignee"
    else Except.ok yt_login

def c5task : ATask := { id := 10, name := "T", assignee := some 7 }

def c5aUsers : List (Nat × AUser) := [(7, ⟨7, "bob@example.com", "Bob"⟩)]

def c5userMap : List (String × UEntry) :=
  [("bob@example.com", { ytLogin := some "bob" })]

/-- C5: the code contradicts the claimed fallback.  This task has an
assignee (`a['assignee']['id'] = 7`) that the Identity Mapper resolves to
the login "bob", and its activity list has no qualifying system story, so
the claim says the reporter is "bob"; but because the fallback probes the
misspelled key `'asignee'` (absent on the task, as on every real Asana
task), the code falls through to the operator login instead. -/
theorem c5_reporter_fallback_bug :
    c5task.assignee = some 7 ∧
    c5task.asignee = none ∧
    a_id_to_yt_login c5aUsers c5userMap 7 = Except.ok "bob" ∧
    reporterFromStories [] = none ∧
    computeReporter c5aUsers c5userMap "operator" c5task [] =
      Except.ok "operator" :=
  ⟨rfl, rfl, rfl, rfl, rfl⟩

/-! ## Claim C10: the 1000-issue fetch window -/

theorem userStep_congr (d1 d2 : List YIssue) (st : MigState) (u : UserWork)
    (h : getIssues d1 u.login 0 1000 = getIssues d2 u.login 0 1000) :
    userStep d1 st u = userStep d2 st u := by
  simp only [userStep, h]

theorem migrateRun_congr (d1 d2 : List YIssue) :
    ∀ (users : List UserWork),
      (∀ u ∈ users, getIssues d1 u.login 0 1000 = getIssues d2 u.login 0 1000) →
      ∀ st, migrateRun d1 st users = migrateRun d2 st users := by
  intro users
  induction users with
  | nil => intro h st; rfl
  | cons u rest ih =>
    intro h st
    have hu := h u (List.mem_cons_self u rest)
    have hrest := ih (fun v hv => h v (List.mem_cons_of_mem u hv))
    rw [migrateRun, migrateRun, userStep_congr d1 d2 st u hu,
      hrest (userStep d2 st u).1]

/-- C10: the query for existing destination issues retrieves exactly the
first 1000 issues matching the assignee filter (offset 0, limit 1000), and
the whole task-migration run is determined by those windows alone — two
destination stores whose per-user windows agree produce identical runs, so
an issue beyond the window cannot suppress re-creation and cannot raise
the sequence counter. -/
theorem c10_window_limit (d1 d2 : List YIssue) (users : List UserWork)
    (h : ∀ u ∈ users, (d1.filter (fun i => i.assignee == u.login)).take 1000 =
      (d2.filter (fun i => i.assignee == u.login)).take 1000) :
    (∀ login, getIssues d1 login 0 1000 =
      (d1.filter (fun i => i.assignee == login)).take 1000) ∧
    migrate_tasks_to_issues d1 users = migrate_tasks_to_issues d2 users := by
  constructor
  · intro login
    simp [getIssues]
  · unfold migrate_tasks_to_issues
    exact migrateRun_congr d1 d2 users
      (fun u hu => by simpa [getIssues] using h u hu) initState

def c10i : YIssue := { numberInProject := 1, summary := "A", assignee := "u" }

def c10other : YIssue := { numberInProject := 2, summary := "B", assignee := "w" }

def c10user : UserWork := { login := "u", tasks := [{ id := 5, name := "N" }] }

theorem c10_witness :
    (([c10i, c10other].filter (fun i => i.assignee == c10user.login)).take 1000 =
      ([c10i].filter (fun i => i.assignee == c10user.login)).take 1000) ∧
    migrate_tasks_to_issues [c10i, c10other] [c10user] =
      migrate_tasks_to_issues [c10i] [c10user] :=
  ⟨by decide,
    (c10_window_limit [c10i, c10other] [c10i] [c10user] (by decide)).2⟩

end A2Y
